import Mathlib

/-!
Shallow embedding of the `aiowithings` asynchronous Withings client.

The file `src/aiowithings/withings.py` of the repository (the Transport Client,
`WithingsClient`) is embedded directly from its source.  The core modules
`models.py`, `helpers.py` and `exceptions.py` are not present under `src/`
(only `__init__.py` re-exports their names), so their definitions are
modelled from the specification, as indicated by their doc comments.

Conventions: Python `float` values produced by the unit decoder are
modelled as rationals (`ℚ`); every value appearing in the claims is exactly
representable in double precision, so the rational model agrees with the
IEEE-754 values there.  Python `dict` results are modelled as association
lists, and network effects are modelled by passing the answers of the network
explicitly.
-/

/-! ## Unit decoder (spec §4.1) -/

/-- Modelled from the spec: the Unit Decoder (`helpers.py`/`models.py` is
missing from `src/`).  `decode(mantissa, exponent) = mantissa * 10 ^ exponent`,
total over all integer inputs; the Python `float` result is modelled as a
rational number. -/
def decode (mantissa exponent : Int) : ℚ :=
  (mantissa : ℚ) * (10 : ℚ) ^ exponent

/-! ## Measurement model (spec §3, §4.2) -/

/-- Modelled from the spec: the closed `MeasurementType` enumeration from
`models.py` (missing from `src/`), a representative subset of the vendor
numeric code list. -/
inductive MeasurementType where
  | weight
  | height
  | fatFreeMass
  | diastolicBloodPressure
  | systolicBloodPressure
  | heartRate
  | temperature
  | spo2
  | bodyTemperature
  | muscleMass
  | hydration
  | boneMass
  | pulseWaveVelocity
  | vo2Max
  deriving DecidableEq, Fintype, Repr

namespace MeasurementType

/-- Modelled from the spec: the stable integer code identifying each
measurement type. -/
def toCode : MeasurementType → Int
  | weight => 1
  | height => 4
  | fatFreeMass => 5
  | diastolicBloodPressure => 9
  | systolicBloodPressure => 10
  | heartRate => 11
  | temperature => 12
  | spo2 => 54
  | bodyTemperature => 71
  | muscleMass => 76
  | hydration => 77
  | boneMass => 88
  | pulseWaveVelocity => 91
  | vo2Max => 123

/-- All defined members of the enumeration, in declaration order. -/
def allTypes : List MeasurementType :=
  [weight, height, fatFreeMass, diastolicBloodPressure, systolicBloodPressure,
   heartRate, temperature, spo2, bodyTemperature, muscleMass, hydration,
   boneMass, pulseWaveVelocity, vo2Max]

/-- Modelled from the spec: conversion from a vendor integer code back to the
enumeration member, `none` for codes outside the defined list. -/
def fromCode (code : Int) : Option MeasurementType :=
  allTypes.find? fun t => t.toCode == code

end MeasurementType

/-- Modelled from the spec: a single decoded measurement
(`models.Measurement` is missing from `src/`). -/
structure Measurement where
  type : MeasurementType
  value : ℚ
  deriving DecidableEq, Repr

/-- Raw measurement payload (spec §6): keys `type`, `value` (mantissa) and
`unit` (decimal exponent). -/
structure RawMeasurement where
  type : Int
  value : Int
  unit : Int
  deriving DecidableEq, Repr

/-- Modelled from the spec: `Measurement.from_api` maps the integer code into
the enumeration (unknown codes degrade to the first defined type standing in
for an "unknown" variant, the alternative policy the spec accepts) and
decodes the value via the Unit Decoder. -/
def Measurement.from_api (raw : RawMeasurement) : Measurement :=
  { type := (MeasurementType.fromCode raw.type).getD MeasurementType.weight
    value := decode raw.value raw.unit }

/-- Modelled from the spec: the two-member measurement group category
enumeration (real vs user-objective). -/
inductive MeasurementGroupCategory where
  | real
  | userObjectives
  deriving DecidableEq, Fintype, Repr

/-- Modelled from the spec: the provenance enumeration for measurement
groups. -/
inductive MeasurementGroupAttribution where
  | deviceEntryForUser
  | deviceEntryAmbiguous
  | manualUserEntry
  | manualUserDuringCreation
  | measuredByWithingsDevice
  deriving DecidableEq, Fintype, Repr

/-- Raw measurement-group payload (spec §6): `category`, `attribution`,
`date` (epoch seconds), ordered `measures`, optional `deviceid` and
`model`. -/
structure RawMeasurementGroup where
  category : Int
  attribution : Int
  date : Int
  measures : List RawMeasurement
  deviceid : Option String
  model : Option Int
  deriving DecidableEq, Repr

/-- Modelled from the spec: a parsed measurement group
(`models.MeasurementGroup` is missing from `src/`). -/
structure MeasurementGroup where
  measured_at : Int
  category : MeasurementGroupCategory
  attribution : MeasurementGroupAttribution
  device_id : Option String
  model : Option Int
  measurements : List Measurement
  deriving DecidableEq, Repr

/-- Modelled from the spec: category code parsing; code 2 is the
user-objective category, other codes degrade to `real` under the
unknown-code policy. -/
def MeasurementGroupCategory.fromCode (code : Int) : MeasurementGroupCategory :=
  if code == 2 then .userObjectives else .real

/-- Modelled from the spec: attribution code parsing with the same degrade
policy for unknown codes. -/
def MeasurementGroupAttribution.fromCode (code : Int) : MeasurementGroupAttribution :=
  if code == 0 then .deviceEntryForUser
  else if code == 1 then .deviceEntryAmbiguous
  else if code == 2 then .manualUserEntry
  else if code == 4 then .manualUserDuringCreation
  else if code == 5 then .measuredByWithingsDevice
  else .deviceEntryForUser

/-- Modelled from the spec: `MeasurementGroup.from_api` parses the category,
attribution and timestamp and maps each entry of the ordered `measures` list
through `Measurement.from_api`, preserving the API-supplied order. -/
def MeasurementGroup.from_api (raw : RawMeasurementGroup) : MeasurementGroup :=
  { measured_at := raw.date
    category := MeasurementGroupCategory.fromCode raw.category
    attribution := MeasurementGroupAttribution.fromCode raw.attribution
    device_id := raw.deviceid
    model := raw.model
    measurements := raw.measures.map Measurement.from_api }

/-! ## Notification mapper (spec §4.3) -/

/-- Modelled from the spec: the closed webhook notification category
enumeration (`models.NotificationCategory` is missing from `src/`). -/
inductive NotificationCategory where
  | weight
  | temperature
  | pressure
  | activity
  | sleep
  | heart
  deriving DecidableEq, Fintype, Repr

/-- Modelled from the spec: the fixed table mapping each notification
category to the measurement types a webhook of that category reports. -/
def get_measurement_type_from_notification_category :
    NotificationCategory → List MeasurementType
  | .weight =>
    [.weight, .fatFreeMass, .muscleMass, .boneMass, .hydration]
  | .temperature => [.temperature, .bodyTemperature]
  | .pressure => [.diastolicBloodPressure, .systolicBloodPressure]
  | .activity => [.heartRate, .spo2]
  | .sleep => [.heartRate]
  | .heart => [.heartRate, .diastolicBloodPressure, .systolicBloodPressure]

/-! ## Aggregator (spec §4.4) -/

/-- A flattened entry: measurement type, decoded value, and the parent
group `measured_at` timestamp. -/
abbrev FlatEntry := MeasurementType × ℚ × Int

/-- Step 1 of the spec algorithm: flatten all measurements of all groups,
pairing each with the timestamp of its parent group, in iteration order. -/
def flattenGroups (groups : List MeasurementGroup) : List FlatEntry :=
  groups.flatMap fun g => g.measurements.map fun m => (m.type, m.value, g.measured_at)

/-- Step 2 of the spec algorithm: when a filter set is supplied, discard
entries whose type is not in it. -/
def filterTypes (mts : Option (List MeasurementType)) (l : List FlatEntry) :
    List FlatEntry :=
  match mts with
  | none => l
  | some allowed => l.filter fun e => decide (e.1 ∈ allowed)

/-- Step 3 of the spec algorithm, one entry at a time: replace the stored
entry of the same type when the new timestamp is at least as late
(last-seen-wins among equal timestamps); append a first-seen type at the
end. -/
def updateEntry : List FlatEntry → FlatEntry → List FlatEntry
  | [], e => [e]
  | (t0, v0, ts0) :: rest, (t, v, ts) =>
    if t = t0 then
      if ts0 ≤ ts then (t0, v, ts) :: rest else (t0, v0, ts0) :: rest
    else
      (t0, v0, ts0) :: updateEntry rest (t, v, ts)

/-- Modelled from the spec: `aggregate_measurements` (`helpers.py` is
missing from `src/`).  Flattens, filters, keeps the latest entry per type
with last-seen-wins tie-breaking, and returns the `type -> value`
mapping as an association list. -/
def aggregate_measurements (groups : List MeasurementGroup)
    (measurement_types : Option (List MeasurementType)) :
    List (MeasurementType × ℚ) :=
  (((filterTypes measurement_types (flattenGroups groups)).foldl
      updateEntry []).map fun e => (e.1, e.2.1))

/-- Association-list lookup of the stored `(value, timestamp)` pair for a
type. -/
def findType (t : MeasurementType) : List FlatEntry → Option (ℚ × Int)
  | [] => none
  | (t0, v0, ts0) :: rest => if t = t0 then some (v0, ts0) else findType t rest

/-- Lookup of the final value for a type in the result mapping. -/
def findValue (t : MeasurementType) : List (MeasurementType × ℚ) → Option ℚ
  | [] => none
  | (t0, v0) :: rest => if t = t0 then some v0 else findValue t rest

/-- The `(value, timestamp)` pairs of a single type, in iteration order. -/
def entriesFor (t : MeasurementType) (l : List FlatEntry) : List (ℚ × Int) :=
  l.filterMap fun e => if e.1 = t then some (e.2.1, e.2.2) else none

/-- Declarative winner of step 3 of the spec for one type: the entry whose
timestamp is the latest, a tie between equal timestamps going to the entry
appearing later in iteration order. -/
def latestEntry : List (ℚ × Int) → Option (ℚ × Int)
  | [] => none
  | e :: l =>
    match latestEntry l with
    | none => some e
    | some e2 => if e.2 ≤ e2.2 then some e2 else some e

/-- Combination of an earlier and a later candidate winner: the later one
wins when its timestamp is at least as late. -/
def combineOpt : Option (ℚ × Int) → Option (ℚ × Int) → Option (ℚ × Int)
  | o, none => o
  | none, some e => some e
  | some e1, some e2 => if e1.2 ≤ e2.2 then some e2 else some e1

/-! ## Transport Client (`src/aiowithings/withings.py`) -/

/-- How a session held by the client came to be: supplied by the caller at
construction, or created lazily by the client itself (`ClientSession()` in
`_request`). -/
inductive SessionRef where
  | supplied (id : Nat)
  | created
  deriving DecidableEq, Repr

/-- The error taxonomy of `exceptions.py` as re-exported by `__init__.py`.
`withingsError` and `connectionError` carry the payloads raised in
`withings.py`; the remaining kinds are modelled from the spec
(`exceptions.py` is missing from `src/`). -/
inductive WithingsException where
  | withingsError (msg : String) (contentType : String) (response : String)
  | connectionError (msg : String)
  | authenticationFailed
  | invalidParams
  | unauthorized
  | errorOccurred
  | badState
  | tooManyRequests
  | unknownStatus
  deriving DecidableEq, Repr

/-- The body of a JSON response, left abstract. -/
abbrev JsonBody := List (String × String)

/-- A response delivered by the network: its headers, its text, and its
parsed JSON body. -/
structure MockResponse where
  headers : List (String × String)
  text : String
  json : JsonBody
  deriving DecidableEq, Repr

/-- One answer of the network to one attempted request: either the timeout
elapsed, or a response arrived. -/
inductive RequestOutcome where
  | timeout
  | response (r : MockResponse)
  deriving DecidableEq, Repr

/-- Case-sensitive lookup of a header value, mirroring
`response.headers.get(name, "")` with its `""` default. -/
def getHeader (headers : List (String × String)) (name : String) : String :=
  match headers.find? fun p => p.1 == name with
  | none => ""
  | some p => p.2

/-- Substring containment on character lists, mirroring the Python
test `needle in haystack`. -/
def listContains (needle : List Char) : List Char → Bool
  | [] => needle.isEmpty
  | c :: rest => needle.isPrefixOf (c :: rest) || listContains needle rest

/-- Substring containment on strings, mirroring the Python operator `in`. -/
def strContains (haystack needle : String) : Bool :=
  listContains needle.data haystack.data

/-- Embeds `WithingsClient` (withings.py line 26): session, timeout, host, token
and session-ownership flag, with the dataclass field defaults. -/
structure WithingsClient where
  session : Option SessionRef := none
  request_timeout : Int := 10
  api_host : String := "wbsapi.withings.net"
  _token : Option String := none
  _close_session : Bool := false
  deriving DecidableEq, Repr

namespace WithingsClient

/-- Embeds `authenticate` (withings.py line 36): store the token. -/
def authenticate (c : WithingsClient) (token : String) : WithingsClient :=
  { c with _token := some token }

/-- Rendering of the token inside the Authorization header string: Python
formats a `None` token as the string `"None"`. -/
def pyStrOfOptToken : Option String → String
  | none => "None"
  | some t => t

/-- The headers dict built at withings.py lines 54-58. -/
def requestHeaders (c : WithingsClient) (version : String) :
    List (String × String) :=
  [("User-Agent", "AioWithings/" ++ version),
   ("Accept", "application/json, text/plain, */*"),
   ("Authorization", "Bearer " ++ pyStrOfOptToken c._token)]

/-- The URL built at withings.py lines 48-52. -/
def requestUrl (c : WithingsClient) (uri : String) : String :=
  "https://" ++ c.api_host ++ ":443/" ++ uri

/-- Observable effects of one `_request` invocation: the URL and headers of
the outbound request, the timeout bound it ran under, and how many times the
network was consulted. -/
structure RequestEffects where
  url : String
  headers : List (String × String)
  timeoutBound : Int
  attempts : Nat
  deriving DecidableEq, Repr

/-- Embeds `_request` (withings.py lines 40-86).  The network is modelled as a
function from attempt index to outcome; the code performs a single request,
so only `net 0` is consulted.  Returns the updated client (the lazily
created session, lines 60-62), the observable effects, and either the JSON
body or the raised exception: `WithingsConnectionError` on timeout
(lines 72-74), `WithingsError` carrying the content type and response text
when the `Content-Type` header does not contain `"application/json"`
(lines 76-84). -/
def request (c : WithingsClient) (uri : String) (version : String)
    (net : Nat → RequestOutcome) :
    WithingsClient × RequestEffects × Except WithingsException JsonBody :=
  let headers := requestHeaders c version
  let url := requestUrl c uri
  let c1 : WithingsClient :=
    if c.session = none then
      { c with session := some SessionRef.created, _close_session := true }
    else c
  let effects : RequestEffects :=
    { url := url, headers := headers, timeoutBound := c.request_timeout,
      attempts := 1 }
  let result : Except WithingsException JsonBody :=
    match net 0 with
    | RequestOutcome.timeout =>
      Except.error (WithingsException.connectionError
        "Timeout occurred while connecting to Withings")
    | RequestOutcome.response r =>
      let content_type := getHeader r.headers "Content-Type"
      if strContains content_type "application/json" then
        Except.ok r.json
      else
        Except.error (WithingsException.withingsError
          "Unexpected response from Withings" content_type r.text)
  (c1, effects, result)

/-- Embeds `close` (withings.py lines 137-140): the session that gets closed, if
any — closed only when a session exists and the client owns it. -/
def closedSession (c : WithingsClient) : Option SessionRef :=
  match c.session with
  | some s => if c._close_session then some s else none
  | none => none

/-- Embeds `__aexit__` (withings.py lines 151-158), which simply awaits `close`. -/
def aexitClosedSession (c : WithingsClient) : Option SessionRef :=
  closedSession c

end WithingsClient

/-- One client-state-changing operation of the public API: a request (any
uri/version/network behaviour) or an `authenticate` call. -/
inductive ClientOp where
  | req (uri : String) (version : String) (net : Nat → RequestOutcome)
  | auth (token : String)

/-- Run a sequence of operations against a client, threading the state. -/
def runOps (c : WithingsClient) : List ClientOp → WithingsClient
  | [] => c
  | ClientOp.req uri version net :: rest =>
    runOps (WithingsClient.request c uri version net).1 rest
  | ClientOp.auth token :: rest =>
    runOps (c.authenticate token) rest

/-! ## Lemmas about the aggregator -/

theorem combineOpt_none_right (o : Option (ℚ × Int)) : combineOpt o none = o := by
  cases o <;> rfl

theorem combineOpt_none_left (o : Option (ℚ × Int)) : combineOpt none o = o := by
  cases o <;> rfl

theorem latestEntry_cons (p : ℚ × Int) (l : List (ℚ × Int)) :
    latestEntry (p :: l) = combineOpt (some p) (latestEntry l) := by
  cases h : latestEntry l <;> simp [latestEntry, h, combineOpt]

theorem combineOpt_some_some (a b : ℚ × Int) :
    combineOpt (some a) (some b) = if a.2 ≤ b.2 then some b else some a := rfl

theorem combineOpt_assoc (a b c : Option (ℚ × Int)) :
    combineOpt (combineOpt a b) c = combineOpt a (combineOpt b c) := by
  rcases b with _ | b
  · rw [combineOpt_none_right, combineOpt_none_left]
  rcases c with _ | c
  · rw [combineOpt_none_right, combineOpt_none_right]
  rcases a with _ | a
  · rw [combineOpt_none_left, combineOpt_none_left]
  rw [combineOpt_some_some a b, combineOpt_some_some b c]
  by_cases h1 : a.2 ≤ b.2 <;> by_cases h2 : b.2 ≤ c.2
  · rw [if_pos h1, if_pos h2, combineOpt_some_some, combineOpt_some_some,
      if_pos h2, if_pos (le_trans h1 h2)]
  · rw [if_pos h1, if_neg h2, combineOpt_some_some, combineOpt_some_some,
      if_neg h2, if_pos h1]
  · rw [if_neg h1, if_pos h2, combineOpt_some_some]
  · rw [if_neg h1, if_neg h2, combineOpt_some_some, combineOpt_some_some,
      if_neg h1, if_neg (show ¬ a.2 ≤ c.2 by omega)]

theorem findType_updateEntry_ne (t : MeasurementType) (acc : List FlatEntry)
    (t1 : MeasurementType) (v1 : ℚ) (ts1 : Int) (h : t1 ≠ t) :
    findType t (updateEntry acc (t1, v1, ts1)) = findType t acc := by
  induction acc with
  | nil => simp [updateEntry, findType, Ne.symm h]
  | cons hd tl ih =>
    obtain ⟨t0, v0, ts0⟩ := hd
    by_cases h10 : t1 = t0
    · subst h10
      simp only [updateEntry, if_pos rfl]
      split_ifs <;> simp [findType, Ne.symm h]
    · simp only [updateEntry, if_neg h10]
      by_cases ht0 : t = t0
      · simp [findType, ht0]
      · simp [findType, ht0, ih]

theorem findType_updateEntry_eq (t : MeasurementType) (v : ℚ) (ts : Int)
    (acc : List FlatEntry) :
    findType t (updateEntry acc (t, v, ts)) =
      combineOpt (findType t acc) (some (v, ts)) := by
  induction acc with
  | nil => simp [updateEntry, findType, combineOpt]
  | cons hd tl ih =>
    obtain ⟨t0, v0, ts0⟩ := hd
    by_cases ht0 : t = t0
    · subst ht0
      by_cases hle : ts0 ≤ ts <;>
        simp [updateEntry, findType, combineOpt, hle]
    · simp [updateEntry, ht0, findType, ih]

theorem entriesFor_cons (t : MeasurementType) (e : FlatEntry) (l : List FlatEntry) :
    entriesFor t (e :: l) =
      if e.1 = t then (e.2.1, e.2.2) :: entriesFor t l else entriesFor t l := by
  by_cases h : e.1 = t <;> simp [entriesFor, h]

theorem findType_foldl (t : MeasurementType) (l : List FlatEntry) :
    ∀ acc, findType t (l.foldl updateEntry acc) =
      combineOpt (findType t acc) (latestEntry (entriesFor t l)) := by
  induction l with
  | nil =>
    intro acc
    simp [entriesFor, latestEntry, combineOpt_none_right]
  | cons e l ih =>
    intro acc
    obtain ⟨t1, v1, ts1⟩ := e
    rw [List.foldl_cons, ih, entriesFor_cons]
    by_cases h : t1 = t
    · subst h
      rw [if_pos rfl, findType_updateEntry_eq, latestEntry_cons, combineOpt_assoc]
    · rw [if_neg h, findType_updateEntry_ne t acc t1 v1 ts1 h]

theorem findValue_map_fst (t : MeasurementType) (l : List FlatEntry) :
    findValue t (l.map fun e => (e.1, e.2.1)) = (findType t l).map Prod.fst := by
  induction l with
  | nil => simp [findValue, findType]
  | cons e l ih =>
    obtain ⟨t0, v0, ts0⟩ := e
    by_cases h : t = t0 <;> simp [findValue, findType, h, ih]

theorem latestEntry_eq_none (l : List (ℚ × Int)) (h : latestEntry l = none) :
    l = [] := by
  cases l with
  | nil => rfl
  | cons p l =>
    rw [latestEntry_cons] at h
    cases hl : latestEntry l <;> rw [hl] at h <;> simp [combineOpt] at h
    split at h <;> simp at h

theorem latestEntry_mem_max (l : List (ℚ × Int)) :
    ∀ e : ℚ × Int, latestEntry l = some e → e ∈ l ∧ ∀ e2 ∈ l, e2.2 ≤ e.2 := by
  induction l with
  | nil => intro e h; simp [latestEntry] at h
  | cons p l ih =>
    intro e h
    rw [latestEntry_cons] at h
    cases hl : latestEntry l with
    | none =>
      rw [hl] at h
      simp [combineOpt] at h
      subst h
      have : l = [] := latestEntry_eq_none l hl
      subst this
      simp
    | some e2 =>
      rw [hl] at h
      simp only [combineOpt] at h
      obtain ⟨hmem, hmax⟩ := ih e2 hl
      split_ifs at h with hle
      · obtain rfl : e2 = e := by simpa using h
        exact ⟨List.mem_cons_of_mem p hmem,
          by
            intro q hq
            rcases List.mem_cons.mp hq with rfl | hq2
            · exact hle
            · exact hmax q hq2⟩
      · obtain rfl : p = e := by simpa using h
        refine ⟨List.mem_cons_self p l, ?_⟩
        intro q hq
        rcases List.mem_cons.mp hq with rfl | hq2
        · exact le_refl _
        · exact le_trans (hmax q hq2) (le_of_not_le hle)

theorem latestEntry_append_last (l : List (ℚ × Int)) (v : ℚ) (ts : Int)
    (h : ∀ e ∈ l, e.2 ≤ ts) : latestEntry (l ++ [(v, ts)]) = some (v, ts) := by
  induction l with
  | nil => simp [latestEntry]
  | cons p l ih =>
    rw [List.cons_append, latestEntry_cons,
      ih fun e he => h e (List.mem_cons_of_mem p he)]
    simp [combineOpt, h p (List.mem_cons_self p l)]

/-! ## Concrete example data (spec §8): group A at timestamp 100 with weight
70, group B at timestamp 200 with weight 72 and height 1.8 -/

/-- Group A of the spec §8 example. -/
def grpA : MeasurementGroup :=
  { measured_at := 100
    category := MeasurementGroupCategory.real
    attribution := MeasurementGroupAttribution.deviceEntryForUser
    device_id := none
    model := none
    measurements := [{ type := MeasurementType.weight, value := 70 }] }

/-- Group B of the spec §8 example. -/
def grpB : MeasurementGroup :=
  { measured_at := 200
    category := MeasurementGroupCategory.real
    attribution := MeasurementGroupAttribution.deviceEntryForUser
    device_id := none
    model := none
    measurements := [{ type := MeasurementType.weight, value := 72 },
                     { type := MeasurementType.height, value := 9 / 5 }] }

/-! ## Claim theorems -/

/-- C1: for every sequence of groups and every optional type filter,
`aggregate_measurements` maps each type surviving the filter to the value
of the entry with the latest parent `measured_at`; `latestEntry` picks an
entry of the list attaining the maximal timestamp, and among equal maximal
timestamps the entry appearing later in iteration order wins. -/
theorem C1_aggregate_latest_per_type :
    (∀ (groups : List MeasurementGroup) (mts : Option (List MeasurementType))
       (t : MeasurementType),
      findValue t (aggregate_measurements groups mts) =
        (latestEntry (entriesFor t (filterTypes mts (flattenGroups groups)))).map
          Prod.fst) ∧
    (∀ (l : List (ℚ × Int)) (e : ℚ × Int), latestEntry l = some e →
      e ∈ l ∧ ∀ e2 ∈ l, e2.2 ≤ e.2) ∧
    (∀ (l : List (ℚ × Int)) (v : ℚ) (ts : Int), (∀ e ∈ l, e.2 ≤ ts) →
      latestEntry (l ++ [(v, ts)]) = some (v, ts)) := by
  refine ⟨?_, latestEntry_mem_max, latestEntry_append_last⟩
  intro groups mts t
  rw [aggregate_measurements, findValue_map_fst, findType_foldl]
  show Option.map Prod.fst (combineOpt none _) = _
  rw [combineOpt_none_left]

/-- C1 witness: on the spec §8 example the aggregate holds weight 72 and the
characterization agrees; on two equal timestamps the later entry wins. -/
theorem C1_witness :
    findValue MeasurementType.weight (aggregate_measurements [grpA, grpB] none) =
      (latestEntry (entriesFor MeasurementType.weight
        (filterTypes none (flattenGroups [grpA, grpB])))).map Prod.fst ∧
    latestEntry [((70 : ℚ), (100 : Int)), ((72 : ℚ), (100 : Int))] =
      some (72, 100) :=
  ⟨C1_aggregate_latest_per_type.1 [grpA, grpB] none MeasurementType.weight,
   C1_aggregate_latest_per_type.2.2 [((70 : ℚ), (100 : Int))] 72 100 (by decide)⟩

/-- C2: the unit decoder is `mantissa * 10 ^ exponent`, total over all
integer inputs (negative, zero, or positive exponent), with the three
concrete values of the spec. -/
theorem C2_decode_contract :
    decode 70000 (-3) = 70 ∧ decode (-50) (-1) = -5 ∧ decode 0 5 = 0 ∧
    (∀ m : Int, decode m 0 = m) ∧
    (∀ m e : Int, decode m (e + 1) = decode m e * 10) ∧
    (∀ m e : Int, decode m e = (m : ℚ) * (10 : ℚ) ^ e) := by
  refine ⟨by norm_num [decode], by norm_num [decode], by norm_num [decode],
    ?_, ?_, fun m e => rfl⟩
  · intro m
    simp [decode]
  · intro m e
    simp only [decode, zpow_add_one₀ (by norm_num : (10 : ℚ) ≠ 0)]
    ring

/-- C3: each defined measurement-type code round-trips through the
enumeration, the code-to-member map is inverted by the member-to-code map,
and distinct members carry distinct codes. -/
theorem C3_type_code_roundtrip :
    (∀ t : MeasurementType, MeasurementType.fromCode t.toCode = some t) ∧
    (∀ (code : Int) (t : MeasurementType),
      MeasurementType.fromCode code = some t → t.toCode = code) ∧
    (∀ t1 t2 : MeasurementType, t1.toCode = t2.toCode → t1 = t2) := by
  refine ⟨by decide, ?_, by decide⟩
  intro code t h
  rw [MeasurementType.fromCode] at h
  have hp := List.find?_some h
  simp only [beq_iff_eq] at hp
  exact hp

/-- C3 witness: code 4 maps to `height` and back to 4. -/
theorem C3_witness :
    MeasurementType.fromCode 4 = some MeasurementType.height ∧
    MeasurementType.height.toCode = 4 :=
  ⟨by decide, C3_type_code_roundtrip.2.1 4 MeasurementType.height (by decide)⟩

/-- C4: the notification-category mapping is total over the defined category
enumeration, every result set is non-empty, and no result set contains a
duplicate type. -/
theorem C4_notification_mapping_total :
    ∀ c : NotificationCategory,
      get_measurement_type_from_notification_category c ≠ [] ∧
      (get_measurement_type_from_notification_category c).Nodup := by
  decide

/-- C5: `MeasurementGroup.from_api` preserves the length and the order of
the raw `measures` list, the i-th parsed measurement being
`Measurement.from_api` of the i-th raw entry. -/
theorem C5_from_api_preserves_order (raw : RawMeasurementGroup) :
    (MeasurementGroup.from_api raw).measurements.length =
      raw.measures.length ∧
    ∀ i : Nat, (MeasurementGroup.from_api raw).measurements.get? i =
      (raw.measures.get? i).map Measurement.from_api := by
  constructor
  · simp [MeasurementGroup.from_api]
  · intro i
    simp [MeasurementGroup.from_api]

/-- C6: aggregation is total (a Lean function), the empty input yields the
empty mapping, a filter matching none of the input yields the empty
mapping, and a type absent from the filtered input is absent from the
result. -/
theorem C6_aggregate_edge_cases :
    aggregate_measurements [] none = [] ∧
    (∀ (groups : List MeasurementGroup) (mts : List MeasurementType),
      (∀ e ∈ flattenGroups groups, e.1 ∉ mts) →
      aggregate_measurements groups (some mts) = []) ∧
    (∀ (groups : List MeasurementGroup) (mts : Option (List MeasurementType))
       (t : MeasurementType),
      (∀ e ∈ filterTypes mts (flattenGroups groups), e.1 ≠ t) →
      findValue t (aggregate_measurements groups mts) = none) := by
  refine ⟨rfl, ?_, ?_⟩
  · intro groups mts h
    have hfilter : filterTypes (some mts) (flattenGroups groups) = [] := by
      simp only [filterTypes]
      rw [List.filter_eq_nil_iff]
      intro e he
      simpa using h e he
    rw [aggregate_measurements, hfilter]
    rfl
  · intro groups mts t h
    have hentries : entriesFor t (filterTypes mts (flattenGroups groups)) = [] := by
      rw [entriesFor, List.filterMap_eq_nil_iff]
      intro e he
      simp [h e he]
    rw [aggregate_measurements, findValue_map_fst, findType_foldl, hentries]
    show Option.map Prod.fst (combineOpt none (latestEntry [])) = none
    rfl

/-- C6 witness: a filter that matches nothing in group A yields the empty
mapping. -/
theorem C6_witness :
    (∀ e ∈ flattenGroups [grpA], e.1 ∉ [MeasurementType.height]) ∧
    aggregate_measurements [grpA] (some [MeasurementType.height]) = [] :=
  ⟨by decide, C6_aggregate_edge_cases.2.1 [grpA] [MeasurementType.height] (by decide)⟩

/-! ## Lemmas about the Transport Client -/

theorem runOps_supplied (s : SessionRef) :
    ∀ (ops : List ClientOp) (c : WithingsClient), c.session = some s →
      (runOps c ops).session = some s ∧
        (runOps c ops)._close_session = c._close_session := by
  intro ops
  induction ops with
  | nil => intro c h; exact ⟨h, rfl⟩
  | cons op rest ih =>
    intro c h
    cases op with
    | auth tok =>
      have := ih (c.authenticate tok) h
      simpa [runOps, WithingsClient.authenticate] using this
    | req uri version net =>
      have hreq : (WithingsClient.request c uri version net).1 = c := by
        simp [WithingsClient.request, h]
      have := ih c h
      simpa [runOps, hreq] using this

theorem runOps_owned :
    ∀ (ops : List ClientOp) (c : WithingsClient),
      (c.session = none ∨
        (c.session = some SessionRef.created ∧ c._close_session = true)) →
      (runOps c ops).session = none ∨
        ((runOps c ops).session = some SessionRef.created ∧
          (runOps c ops)._close_session = true) := by
  intro ops
  induction ops with
  | nil => intro c h; exact h
  | cons op rest ih =>
    intro c h
    cases op with
    | auth tok =>
      have := ih (c.authenticate tok)
        (by simpa [WithingsClient.authenticate] using h)
      simpa [runOps] using this
    | req uri version net =>
      rcases h with h1 | ⟨h1, h2⟩
      · have hreq : (WithingsClient.request c uri version net).1 =
            { c with session := some SessionRef.created,
                     _close_session := true } := by
          simp [WithingsClient.request, h1]
        have := ih { c with session := some SessionRef.created,
                             _close_session := true }
          (Or.inr ⟨rfl, rfl⟩)
        simpa [runOps, hreq] using this
      · have hreq : (WithingsClient.request c uri version net).1 = c := by
          simp [WithingsClient.request, h1]
        have := ih c (Or.inr ⟨h1, h2⟩)
        simpa [runOps, hreq] using this

/-- C7: every request runs under the timeout bound stored in the client,
whose default value is 10; when the timeout elapses the request raises the
connection error, and only the first answer of the network is ever
consulted (a single attempt, no retry). -/
theorem C7_timeout_no_retry :
    (({} : WithingsClient).request_timeout = 10) ∧
    (∀ (c : WithingsClient) (uri version : String)
       (net : Nat → RequestOutcome),
      (WithingsClient.request c uri version net).2.1.timeoutBound =
        c.request_timeout ∧
      (WithingsClient.request c uri version net).2.1.attempts = 1) ∧
    (∀ (c : WithingsClient) (uri version : String)
       (net : Nat → RequestOutcome), net 0 = RequestOutcome.timeout →
      (WithingsClient.request c uri version net).2.2 =
        Except.error (WithingsException.connectionError
          "Timeout occurred while connecting to Withings")) ∧
    (∀ (c : WithingsClient) (uri version : String)
       (net1 net2 : Nat → RequestOutcome), net1 0 = net2 0 →
      WithingsClient.request c uri version net1 =
        WithingsClient.request c uri version net2) := by
  refine ⟨rfl, fun c uri version net => ⟨rfl, rfl⟩, ?_, ?_⟩
  · intro c uri version net h
    simp [WithingsClient.request, h]
  · intro c uri version net1 net2 h
    simp [WithingsClient.request, h]

/-- C7 witness: the default client, asked against a network that times out,
raises the connection error. -/
theorem C7_witness :
    ((fun _ : Nat => RequestOutcome.timeout) 0 = RequestOutcome.timeout) ∧
    (WithingsClient.request {} "v2/user" "1.0"
        fun _ => RequestOutcome.timeout).2.2 =
      Except.error (WithingsException.connectionError
        "Timeout occurred while connecting to Withings") :=
  ⟨rfl, C7_timeout_no_retry.2.2.1 {} "v2/user" "1.0"
    (fun _ => RequestOutcome.timeout) rfl⟩

/-- C8: a request creates a session (and takes ownership) exactly when none
is present; a client starting from a caller-supplied session never closes
it under any operation sequence, while a client starting without one either
still has no session or owns a self-created session that `close` (and the
async-context exit, which equals `close`) releases. -/
theorem C8_session_ownership :
    (∀ (c : WithingsClient) (uri version : String)
       (net : Nat → RequestOutcome),
      (c.session = none →
        (WithingsClient.request c uri version net).1.session =
          some SessionRef.created ∧
        (WithingsClient.request c uri version net).1._close_session = true) ∧
      (∀ s : SessionRef, c.session = some s →
        (WithingsClient.request c uri version net).1 = c)) ∧
    (∀ (s : SessionRef) (ops : List ClientOp),
      WithingsClient.closedSession
        (runOps ({ session := some s } : WithingsClient) ops) = none) ∧
    (∀ ops : List ClientOp,
      (runOps ({} : WithingsClient) ops).session = none ∨
        WithingsClient.closedSession (runOps ({} : WithingsClient) ops) =
          some SessionRef.created) ∧
    (∀ c : WithingsClient,
      WithingsClient.aexitClosedSession c = WithingsClient.closedSession c) := by
  refine ⟨?_, ?_, ?_, fun c => rfl⟩
  · intro c uri version net
    constructor
    · intro h
      simp [WithingsClient.request, h]
    · intro s h
      simp [WithingsClient.request, h]
  · intro s ops
    obtain ⟨h1, h2⟩ := runOps_supplied s ops { session := some s } rfl
    simp [WithingsClient.closedSession, h1, h2]
  · intro ops
    rcases runOps_owned ops {} (Or.inl rfl) with h | ⟨h1, h2⟩
    · exact Or.inl h
    · exact Or.inr (by simp [WithingsClient.closedSession, h1, h2])

/-- C8 witness: a request on a fresh client with no session creates an
owned session, and a caller-supplied session survives a request unclosed. -/
theorem C8_witness :
    (({} : WithingsClient).session = none) ∧
    (WithingsClient.request {} "measure" "1.0"
      fun _ => RequestOutcome.timeout).1.session = some SessionRef.created ∧
    (WithingsClient.request {} "measure" "1.0"
      fun _ => RequestOutcome.timeout).1._close_session = true ∧
    WithingsClient.closedSession
      (runOps ({ session := some (SessionRef.supplied 7) } : WithingsClient)
        [ClientOp.req "measure" "1.0" fun _ => RequestOutcome.timeout]) = none :=
  ⟨rfl,
   ((C8_session_ownership.1 {} "measure" "1.0"
      fun _ => RequestOutcome.timeout).1 rfl).1,
   ((C8_session_ownership.1 {} "measure" "1.0"
      fun _ => RequestOutcome.timeout).1 rfl).2,
   C8_session_ownership.2.1 (SessionRef.supplied 7)
     [ClientOp.req "measure" "1.0" fun _ => RequestOutcome.timeout]⟩

/-- C9: a response whose Content-Type header does not contain
"application/json" makes the request raise the generic Withings error
carrying the content type and the response text; the exception taxonomy
keeps the connection, authentication, parameter, authorization, generic,
bad-state, rate-limit and unknown-status kinds distinct. -/
theorem C9_non_json_response_error :
    (∀ (c : WithingsClient) (uri version : String)
       (net : Nat → RequestOutcome) (r : MockResponse),
      net 0 = RequestOutcome.response r →
      strContains (getHeader r.headers "Content-Type") "application/json" =
        false →
      (WithingsClient.request c uri version net).2.2 =
        Except.error (WithingsException.withingsError
          "Unexpected response from Withings"
          (getHeader r.headers "Content-Type") r.text)) ∧
    List.Nodup [WithingsException.withingsError "m" "ct" "body",
      WithingsException.connectionError "m",
      WithingsException.authenticationFailed,
      WithingsException.invalidParams,
      WithingsException.unauthorized,
      WithingsException.errorOccurred,
      WithingsException.badState,
      WithingsException.tooManyRequests,
      WithingsException.unknownStatus] := by
  refine ⟨?_, by decide⟩
  intro c uri version net r hnet hct
  simp [WithingsClient.request, hnet, hct]

/-- An HTML error page standing in for a malformed response. -/
def htmlResponse : MockResponse :=
  { headers := [("Content-Type", "text/html")]
    text := "Server Error"
    json := [] }

/-- C9 witness: an HTML response raises the generic error carrying the
content type and body text. -/
theorem C9_witness :
    ((fun _ : Nat => RequestOutcome.response htmlResponse) 0 =
      RequestOutcome.response htmlResponse) ∧
    strContains (getHeader htmlResponse.headers "Content-Type")
      "application/json" = false ∧
    (WithingsClient.request {} "measure" "1.0"
        fun _ => RequestOutcome.response htmlResponse).2.2 =
      Except.error (WithingsException.withingsError
        "Unexpected response from Withings" "text/html" "Server Error") :=
  ⟨rfl, by decide,
   C9_non_json_response_error.1 {} "measure" "1.0"
     (fun _ => RequestOutcome.response htmlResponse) htmlResponse rfl (by decide)⟩

/-- C10: `authenticate` replaces only the stored token; a client whose token
was never set still sends the request, with the Authorization header equal
to the string "Bearer None". -/
theorem C10_unauthenticated_bearer_none :
    (∀ (c : WithingsClient) (token : String),
      (c.authenticate token)._token = some token ∧
      (c.authenticate token).session = c.session ∧
      (c.authenticate token).request_timeout = c.request_timeout ∧
      (c.authenticate token).api_host = c.api_host ∧
      (c.authenticate token)._close_session = c._close_session) ∧
    (∀ (c : WithingsClient) (uri version : String)
       (net : Nat → RequestOutcome),
      c._token = none →
      (WithingsClient.request c uri version net).2.1.headers =
        [("User-Agent", "AioWithings/" ++ version),
         ("Accept", "application/json, text/plain, */*"),
         ("Authorization", "Bearer None")] ∧
      (WithingsClient.request c uri version net).2.1.attempts = 1) := by
  refine ⟨fun c token => ⟨rfl, rfl, rfl, rfl, rfl⟩, ?_⟩
  intro c uri version net h
  refine ⟨?_, rfl⟩
  simp [WithingsClient.request, WithingsClient.requestHeaders,
    WithingsClient.pyStrOfOptToken, h]

/-- C10 witness: the default (never-authenticated) client sends the header
"Bearer None". -/
theorem C10_witness :
    (({} : WithingsClient)._token = none) ∧
    (WithingsClient.request {} "v2/user" "1.0"
        fun _ => RequestOutcome.timeout).2.1.headers =
      [("User-Agent", "AioWithings/1.0"),
       ("Accept", "application/json, text/plain, */*"),
       ("Authorization", "Bearer None")] :=
  ⟨rfl,
   (C10_unauthenticated_bearer_none.2 {} "v2/user" "1.0"
     (fun _ => RequestOutcome.timeout) rfl).1⟩
